import Mathlib

/-!
Verification development for the subtraction-creation workflow
(src/workflow.py).  The workflow stages an uploaded FASTA file into a
temporary directory, computes nucleotide statistics, builds a Bowtie2
index, compresses the FASTA and copies the working tree into permanent
storage, with a cleanup hook registered for failure and cancellation.

The filesystem is modelled as the set of existing paths (a list of
strings), the database as an optional subtraction record, and each
awaited primitive operation of the pipeline as a transition on that
state.  Executions are parameterised by the point at which the job
fails or is cancelled; the cleanup hook runs after a failure.
-/

set_option maxRecDepth 4000

namespace CreateSubtraction

/-- os.path.join specialised to two components, as used in check_db. -/
def pjoin (a b : String) : String := a ++ "/" ++ b

/-- Character-level prefix test on lists (used for directory containment). -/
def charsLead : List Char → List Char → Bool
  | [], _ => true
  | _ :: _, [] => false
  | p :: ps, c :: cs => p == c && charsLead ps cs

/-- str.replace applied with the single-character pattern of a space and
the replacement underscore, acting on every occurrence. -/
def replaceSpaces (s : String) : String :=
  String.mk (s.toList.map fun ch => if ch == ' ' then '_' else ch)

/-- str.lower at the character level. -/
def lowerString (s : String) : String :=
  String.mk (s.toList.map Char.toLower)

/-- The path fields that check_db stores into job_params
(src/workflow.py, check_db). -/
structure JobParams where
  subtraction_id : String
  file_id : String
  subtraction_path : String
  temp_subtraction_path : String
  file_path : String
  temp_fasta_path : String
  temp_index_path : String
deriving DecidableEq, Repr

/-- check_db (src/workflow.py lines 37-75): derives every filesystem
path of the job from the two identifiers and the two root directories.
Only the permanent subtraction_path uses the normalised id. -/
def check_db (subtraction_id file_id data_path temp_path : String) : JobParams :=
  let subtraction_path :=
    pjoin (pjoin data_path "subtractions") (lowerString (replaceSpaces subtraction_id))
  let temp_subtraction_path := pjoin temp_path subtraction_id
  { subtraction_id := subtraction_id
    file_id := file_id
    subtraction_path := subtraction_path
    temp_subtraction_path := temp_subtraction_path
    file_path := pjoin (pjoin data_path "files") file_id
    temp_fasta_path := pjoin temp_subtraction_path "subtraction.fa"
    temp_index_path := pjoin temp_subtraction_path "reference" }

/-- Errors raised by the modelled filesystem and subprocess calls. -/
inductive OsErr
  | enoent
  | eexist
  | eisdir
  | other (msg : String)
deriving DecidableEq, Repr

/-- The filesystem: the set of paths (files and directories) that exist. -/
abbrev FS := List String

instance {ε α : Type} [DecidableEq ε] [DecidableEq α] : DecidableEq (Except ε α) :=
  fun x y =>
    match x, y with
    | .ok a, .ok b =>
        if h : a = b then isTrue (by rw [h])
        else isFalse (by intro hc; cases hc; exact h rfl)
    | .ok _, .error _ => isFalse (by intro hc; cases hc)
    | .error _, .ok _ => isFalse (by intro hc; cases hc)
    | .error e, .error f =>
        if h : e = f then isTrue (by rw [h])
        else isFalse (by intro hc; cases hc; exact h rfl)

/-- Create a path if it does not exist yet. -/
def insertPath (fs : FS) (p : String) : FS := if p ∈ fs then fs else p :: fs

/-- e lies strictly below the directory root. -/
def isUnder (root e : String) : Bool := charsLead (root ++ "/").toList e.toList

/-- virtool_core.utils.rm: os.remove, falling back to shutil.rmtree for a
directory when recursive is set.  A missing path raises FileNotFoundError
(modelled as enoent) — the except clause in delete_subtraction
(src/workflow.py line 29) documents exactly this behaviour. -/
def rmPath (fs : FS) (p : String) (recursive : Bool) : Except OsErr FS :=
  if p ∈ fs then
    if recursive then
      .ok (fs.filter fun e => !(e == p || isUnder p e))
    else if fs.any (isUnder p) then
      .error .eisdir
    else
      .ok (fs.filter fun e => !(e == p))
  else
    .error .enoent

/-- shutil.copytree: fails if the destination exists, otherwise copies the
whole tree rooted at src to dst, leaving src in place. -/
def copytree (fs : FS) (src dst : String) : Except OsErr FS :=
  if dst ∈ fs then .error .eexist
  else if src ∈ fs then
    .ok (fs ++ fs.filterMap fun e =>
      if e == src then some dst
      else if isUnder src e then some (dst ++ e.drop src.length)
      else none)
  else .error .enoent

/-- virtool_core.utils.compress_file: reads src and writes a compressed
copy at dst; fails if src is missing. -/
def compress_file_op (fs : FS) (src dst : String) : Except OsErr FS :=
  if src ∈ fs then .ok (insertPath fs dst) else .error .enoent

/-- Nucleotide fractions stored in the gc field of the record. -/
structure GcStats where
  a : ℚ
  t : ℚ
  g : ℚ
  c : ℚ
  n : ℚ
deriving DecidableEq, Repr

/-- The durable subtraction record (db.subtraction document). -/
structure SubtractionRecord where
  id : String
  gc : Option GcStats
  count : Option Nat
  ready : Bool
deriving DecidableEq, Repr

/-- The database: at most the one record this job owns. -/
abbrev DB := Option SubtractionRecord

/-- The field mutation performed by set_stats (src/workflow.py lines
116-121): update_one with a set of exactly the gc and count fields. -/
def set_stats_update (r : SubtractionRecord) (gc : GcStats) (count : Nat) :
    SubtractionRecord :=
  { r with gc := some gc, count := some count }

/-- db.subtraction.update_one(filter id, set gc and count). -/
def update_gc_count (db : DB) (sid : String) (gc : GcStats) (count : Nat) : DB :=
  match db with
  | some r => if r.id = sid then some (set_stats_update r gc count) else some r
  | none => none

/-- db.subtraction.update_one(filter id, set ready true), performed by
bowtie_build after the subprocess returns (src/workflow.py lines 142-146). -/
def update_ready (db : DB) (sid : String) : DB :=
  match db with
  | some r => if r.id = sid then some { r with ready := true } else some r
  | none => none

/-- db.subtraction.delete_one(filter id): deleting an absent document is
a no-op. -/
def delete_one (db : DB) (sid : String) : DB :=
  match db with
  | some r => if r.id = sid then none else some r
  | none => none

/-- Job state visible to the model: filesystem, database, and the list of
subprocess invocations made so far. -/
structure State where
  fs : FS
  db : DB
  calls : List (List String)
deriving DecidableEq, Repr

/-- The body of the cleanup hook delete_subtraction (src/workflow.py lines
22-34), abstracted over the outcome of the rm call: a FileNotFoundError is
swallowed, any other error propagates before the record is deleted. -/
def delete_subtraction_gen (jp : JobParams) (s : State)
    (rmResult : Except OsErr FS) : Except OsErr State :=
  match rmResult with
  | .ok fs₁ => .ok { s with fs := fs₁, db := delete_one s.db jp.subtraction_id }
  | .error .enoent => .ok { s with db := delete_one s.db jp.subtraction_id }
  | .error e => .error e

/-- delete_subtraction: rm(subtraction_path, recursive) with
FileNotFoundError swallowed, then delete_one on the record. -/
def delete_subtraction (jp : JobParams) (s : State) : Except OsErr State :=
  delete_subtraction_gen jp s (rmPath s.fs jp.subtraction_path true)

/-- The state produced by a run of the cleanup hook. -/
def cleanupRun (jp : JobParams) (s : State) : State :=
  match rmPath s.fs jp.subtraction_path true with
  | .ok fs₁ => { s with fs := fs₁, db := delete_one s.db jp.subtraction_id }
  | .error _ => { s with db := delete_one s.db jp.subtraction_id }

/-- The argument list built by bowtie_build (src/workflow.py lines
132-138). -/
def bowtie_build_command (jp : JobParams) (number_of_processes : Nat) :
    List String :=
  ["bowtie2-build", "-f", "--threads", toString number_of_processes,
    jp.temp_fasta_path, jp.temp_index_path]

/-- Modelled from the spec: run_subprocess is supplied by the job runtime
and is not part of this repository; per the External process interface,
success is exit code 0 and a nonzero exit is fatal to the step. -/
def run_subprocess_ok (exit_code : Nat) : Bool := exit_code == 0

/-- Index files written by a successful bowtie2-build at the output
location temp_index_path. -/
def bowtieIndexFiles (jp : JobParams) : List String :=
  [jp.temp_index_path ++ ".1.bt2", jp.temp_index_path ++ ".2.bt2"]

/-- The awaited primitive operations of the pipeline, in program order:
make_subtraction_dir; unpack; the database write of set_stats; the
subprocess and then the ready write of bowtie_build; and the three
operations of compress. -/
inductive Prim
  | mkdirTemp
  | unpack
  | statsUpdate
  | bowtie
  | setReady
  | gzipFasta
  | rmFasta
  | copyTree
deriving DecidableEq, Repr

/-- Effect of one primitive on the job state.  gc and count abstract the
values computed from the staged FASTA (the statistics function itself is
modelled separately as calculate_fasta_gc; its output values do not
affect the filesystem or the ready flag). -/
def applyPrim (jp : JobParams) (nproc : Nat) (gc : GcStats) (count : Nat) :
    Prim → State → Except OsErr State
  | .mkdirTemp, s =>
      .ok { s with fs := insertPath s.fs jp.temp_subtraction_path }
  | .unpack, s =>
      if jp.file_path ∈ s.fs then
        .ok { s with fs := insertPath s.fs jp.temp_fasta_path }
      else .error .enoent
  | .statsUpdate, s =>
      if jp.temp_fasta_path ∈ s.fs then
        .ok { s with db := update_gc_count s.db jp.subtraction_id gc count }
      else .error .enoent
  | .bowtie, s =>
      if jp.temp_fasta_path ∈ s.fs then
        .ok { s with fs := (bowtieIndexFiles jp).foldl insertPath s.fs,
                     calls := s.calls ++ [bowtie_build_command jp nproc] }
      else .error .enoent
  | .setReady, s =>
      .ok { s with db := update_ready s.db jp.subtraction_id }
  | .gzipFasta, s =>
      match compress_file_op s.fs jp.temp_fasta_path (jp.temp_fasta_path ++ ".gz") with
      | .ok fs₁ => .ok { s with fs := fs₁ }
      | .error e => .error e
  | .rmFasta, s =>
      match rmPath s.fs jp.temp_fasta_path false with
      | .ok fs₁ => .ok { s with fs := fs₁ }
      | .error e => .error e
  | .copyTree, s =>
      match copytree s.fs jp.temp_subtraction_path jp.subtraction_path with
      | .ok fs₁ => .ok { s with fs := fs₁ }
      | .error e => .error e

/-- The compress step (src/workflow.py lines 151-175): compress_file to
temp_fasta_path plus a gz suffix, rm of the uncompressed copy with no
exception handler, then copytree into the permanent location. -/
def compress_step (jp : JobParams) (fs : FS) : Except OsErr FS := do
  let fs₁ ← compress_file_op fs jp.temp_fasta_path (jp.temp_fasta_path ++ ".gz")
  let fs₂ ← rmPath fs₁ jp.temp_fasta_path false
  copytree fs₂ jp.temp_subtraction_path jp.subtraction_path

/-- The primitives in their declared order. -/
def pipeline : List Prim :=
  [.mkdirTemp, .unpack, .statsUpdate, .bowtie, .setReady,
   .gzipFasta, .rmFasta, .copyTree]

/-- States observable after each successfully applied primitive; stops at
the first primitive whose own semantics fail. -/
def traceFrom (jp : JobParams) (nproc : Nat) (gc : GcStats) (count : Nat) :
    List Prim → State → List State
  | [], _ => []
  | p :: ps, s =>
      match applyPrim jp nproc gc count p s with
      | .ok s₁ => s₁ :: traceFrom jp nproc gc count ps s₁
      | .error _ => []

/-- Observable states of one execution.  failAt none is the successful
run (cleanup never fires); failAt k means the job fails or is cancelled
during primitive k, which then has no effect, and the cleanup hook runs
on the state reached so far. -/
def runTrace (jp : JobParams) (nproc : Nat) (gc : GcStats) (count : Nat)
    (failAt : Option (Fin 8)) (s0 : State) : List State :=
  match failAt with
  | none => s0 :: traceFrom jp nproc gc count pipeline s0
  | some k =>
      let pre := traceFrom jp nproc gc count (pipeline.take (k : Nat)) s0
      (s0 :: pre) ++ [cleanupRun jp (pre.getLastD s0)]

/-- Initial state: the uploaded source file exists, the placeholder
record exists with ready false, nothing has been staged yet. -/
def initState (jp : JobParams) : State :=
  { fs := [jp.file_path]
    db := some { id := jp.subtraction_id, gc := none, count := none, ready := false }
    calls := [] }

/-- ready as observable in the database; an absent record is not ready. -/
def readyOf (s : State) : Bool :=
  match s.db with
  | some r => r.ready
  | none => false

/-- The working location holds data: the temporary subtraction directory
or anything below it exists. -/
def dataInWorking (jp : JobParams) (s : State) : Bool :=
  s.fs.any fun e => e == jp.temp_subtraction_path || isUnder jp.temp_subtraction_path e

/-- The final location holds data: the permanent subtraction directory or
anything below it exists. -/
def dataInFinal (jp : JobParams) (s : State) : Bool :=
  s.fs.any fun e => e == jp.subtraction_path || isUnder jp.subtraction_path e

/-- Both bowtie2 index files exist at the output location. -/
def hasIndexFiles (jp : JobParams) (s : State) : Bool :=
  (bowtieIndexFiles jp).all fun p => s.fs.contains p

/-- A concrete job used to evaluate whole executions: the id contains a
space and an upper-case letter, so the normalised permanent path differs
from the raw id. -/
def jp0 : JobParams := check_db "Host A" "f1" "d" "t"

/-- Placeholder statistics for the concrete executions. -/
def gc0 : GcStats := ⟨0, 0, 0, 0, 0⟩

/-- Observable states of the concrete execution with the given failure
point. -/
def trace0 (failAt : Option (Fin 8)) : List State :=
  runTrace jp0 2 gc0 2 failAt (initState jp0)

/-- Final observable state of the concrete execution. -/
def finalState (failAt : Option (Fin 8)) : State :=
  (trace0 failAt).getLastD (initState jp0)

/-- A FASTA header line starts with the record marker. -/
def isHeaderLine (line : String) : Bool := charsLead ">".toList line.toList

/-- All characters of the sequence (non-header) lines, in file order. -/
def sequenceChars (lines : List String) : List Char :=
  (lines.filter fun l => !isHeaderLine l).flatMap String.toList

/-- Occurrences of one canonical base among the sequence characters,
case-insensitively. -/
def countBase (cs : List Char) (b : Char) : Nat :=
  cs.countP fun c => c.toLower == b

/-- Sequence characters outside the canonical alphabet. -/
def countResidual (cs : List Char) : Nat :=
  cs.countP fun c =>
    !(c.toLower == 'a' || c.toLower == 't' || c.toLower == 'g' || c.toLower == 'c')

/-- Modelled from the spec: utils.calculate_fasta_gc is called by set_stats
(src/workflow.py line 115) but the utils module of this repository is not
under src/.  Per the FastaAnalyzer design: lines are classified as headers
or sequence data, headers are counted as records, per-base counts are
accumulated case-insensitively over all sequence characters, each fraction
is count over total bases, non-canonical characters are reported under the
residual bucket named n (the documented implementer's choice), and every
fraction is 0 when there are no sequence bases. -/
def calculate_fasta_gc (lines : List String) : GcStats × Nat :=
  let cs := sequenceChars lines
  let total := cs.length
  let count := (lines.filter isHeaderLine).length
  if total = 0 then (⟨0, 0, 0, 0, 0⟩, count)
  else
    ({ a := (countBase cs 'a' : ℚ) / (total : ℚ)
       t := (countBase cs 't' : ℚ) / (total : ℚ)
       g := (countBase cs 'g' : ℚ) / (total : ℚ)
       c := (countBase cs 'c' : ℚ) / (total : ℚ)
       n := (countResidual cs : ℚ) / (total : ℚ) }, count)

/-! ### Helper lemmas -/

theorem head_sum (ch : Char) :
    ((if ch.toLower == 'a' then 1 else 0) : Nat)
      + (if ch.toLower == 't' then 1 else 0)
      + (if ch.toLower == 'g' then 1 else 0)
      + (if ch.toLower == 'c' then 1 else 0)
      + (if !(ch.toLower == 'a' || ch.toLower == 't' || ch.toLower == 'g' || ch.toLower == 'c')
          then 1 else 0) = 1 := by
  by_cases ha : ch.toLower = 'a' <;> by_cases ht : ch.toLower = 't' <;>
    by_cases hg : ch.toLower = 'g' <;> by_cases hc : ch.toLower = 'c' <;>
    simp [ha, ht, hg, hc]

theorem countBase_partition (cs : List Char) :
    countBase cs 'a' + countBase cs 't' + countBase cs 'g' + countBase cs 'c'
      + countResidual cs = cs.length := by
  induction cs with
  | nil => rfl
  | cons ch tl ih =>
    have hhead := head_sum ch
    simp only [countBase, countResidual, List.countP_cons, List.length_cons] at ih ⊢
    omega

theorem delete_one_idem (db : DB) (sid : String) :
    delete_one (delete_one db sid) sid = delete_one db sid := by
  cases db with
  | none => rfl
  | some r => by_cases h : r.id = sid <;> simp [delete_one, h]

theorem delete_subtraction_ok (jp : JobParams) (s : State) :
    delete_subtraction jp s = .ok (cleanupRun jp s) := by
  unfold delete_subtraction delete_subtraction_gen cleanupRun rmPath
  by_cases h : jp.subtraction_path ∈ s.fs <;> simp [h]

theorem cleanupRun_fs_not_mem (jp : JobParams) (s : State) :
    jp.subtraction_path ∉ (cleanupRun jp s).fs := by
  unfold cleanupRun rmPath
  by_cases h : jp.subtraction_path ∈ s.fs
  · simp [h, List.mem_filter]
  · simp [h]

theorem cleanupRun_of_not_mem (jp : JobParams) (t : State)
    (h : jp.subtraction_path ∉ t.fs) :
    cleanupRun jp t = { t with db := delete_one t.db jp.subtraction_id } := by
  unfold cleanupRun rmPath
  simp [h]

theorem cleanupRun_db (jp : JobParams) (s : State) :
    (cleanupRun jp s).db = delete_one s.db jp.subtraction_id := by
  unfold cleanupRun rmPath
  by_cases h : jp.subtraction_path ∈ s.fs <;> simp [h]

/-! ### Claims -/

/-- C4: check_db resolves the permanent path as dataRoot/subtractions/
followed by the id with spaces replaced by underscores and lower-cased,
the source path as dataRoot/files/fileId, and the temporary paths under
tempRoot with the raw id — subtraction.fa and the index location
reference — while the database id keeps the raw id: the normalisation
touches only the permanent path. -/
theorem check_db_resolves_paths (sid fid dataRoot tempRoot : String) :
    (check_db sid fid dataRoot tempRoot).subtraction_path
        = dataRoot ++ "/subtractions/" ++ lowerString (replaceSpaces sid)
  ∧ (check_db sid fid dataRoot tempRoot).file_path = dataRoot ++ "/files/" ++ fid
  ∧ (check_db sid fid dataRoot tempRoot).temp_subtraction_path = tempRoot ++ "/" ++ sid
  ∧ (check_db sid fid dataRoot tempRoot).temp_fasta_path
        = tempRoot ++ "/" ++ sid ++ "/subtraction.fa"
  ∧ (check_db sid fid dataRoot tempRoot).temp_index_path
        = tempRoot ++ "/" ++ sid ++ "/reference"
  ∧ (check_db sid fid dataRoot tempRoot).subtraction_id = sid := by
  have h1 : ("/" : String) ++ "subtractions" = "/subtractions" := rfl
  have h2 : ("/subtractions" : String) ++ "/" = "/subtractions/" := rfl
  have h3 : ("/" : String) ++ "files" = "/files" := rfl
  have h4 : ("/files" : String) ++ "/" = "/files/" := rfl
  have h5 : ("/" : String) ++ "subtraction.fa" = "/subtraction.fa" := rfl
  have h6 : ("/" : String) ++ "reference" = "/reference" := rfl
  refine ⟨?_, ?_, rfl, ?_, ?_, rfl⟩
  · simp only [check_db, pjoin]
    rw [String.append_assoc dataRoot "/" "subtractions", h1, String.append_assoc dataRoot, h2]
  · simp only [check_db, pjoin]
    rw [String.append_assoc dataRoot "/" "files", h3, String.append_assoc dataRoot, h4]
  · simp only [check_db, pjoin]
    rw [String.append_assoc, h5]
  · simp only [check_db, pjoin]
    rw [String.append_assoc, h6]

/-- C5: the base fractions computed by calculate_fasta_gc sum to exactly 1
whenever the number of sequence bases is positive, and are all 0 when the
input has no sequence bases, with no division by zero. -/
theorem calculate_fasta_gc_fraction_sum (lines : List String) :
    (0 < (sequenceChars lines).length →
      (calculate_fasta_gc lines).1.a + (calculate_fasta_gc lines).1.t
        + (calculate_fasta_gc lines).1.g + (calculate_fasta_gc lines).1.c
        + (calculate_fasta_gc lines).1.n = 1)
  ∧ ((sequenceChars lines).length = 0 →
      (calculate_fasta_gc lines).1.a = 0 ∧ (calculate_fasta_gc lines).1.t = 0
        ∧ (calculate_fasta_gc lines).1.g = 0 ∧ (calculate_fasta_gc lines).1.c = 0
        ∧ (calculate_fasta_gc lines).1.n = 0) := by
  constructor
  · intro hpos
    have hne : (sequenceChars lines).length ≠ 0 := Nat.pos_iff_ne_zero.mp hpos
    have hcast : ((sequenceChars lines).length : ℚ) ≠ 0 := by exact_mod_cast hne
    simp only [calculate_fasta_gc, if_neg hne]
    rw [div_add_div_same, div_add_div_same, div_add_div_same, div_add_div_same,
      div_eq_one_iff_eq hcast]
    exact_mod_cast countBase_partition (sequenceChars lines)
  · intro h0
    simp [calculate_fasta_gc, h0]

/-- C5 witness: on a two-record FASTA the fractions sum to 1; on a
header-only file there are no bases and every fraction is 0. -/
theorem calculate_fasta_gc_fraction_sum_witness :
    (0 < (sequenceChars [">r1", "ATGC", ">r2", "AATT"]).length
      ∧ (calculate_fasta_gc [">r1", "ATGC", ">r2", "AATT"]).1.a
          + (calculate_fasta_gc [">r1", "ATGC", ">r2", "AATT"]).1.t
          + (calculate_fasta_gc [">r1", "ATGC", ">r2", "AATT"]).1.g
          + (calculate_fasta_gc [">r1", "ATGC", ">r2", "AATT"]).1.c
          + (calculate_fasta_gc [">r1", "ATGC", ">r2", "AATT"]).1.n = 1)
  ∧ ((sequenceChars [">only"]).length = 0
      ∧ (calculate_fasta_gc [">only"]).1.a = 0 ∧ (calculate_fasta_gc [">only"]).1.t = 0
        ∧ (calculate_fasta_gc [">only"]).1.g = 0 ∧ (calculate_fasta_gc [">only"]).1.c = 0
        ∧ (calculate_fasta_gc [">only"]).1.n = 0) :=
  ⟨⟨by decide, (calculate_fasta_gc_fraction_sum [">r1", "ATGC", ">r2", "AATT"]).1 (by decide)⟩,
    ⟨by decide, (calculate_fasta_gc_fraction_sum [">only"]).2 (by decide)⟩⟩

/-- C3: in every execution, at every observable state, the record is ready
only if the index files exist at the output location, and the final
directory exists only if the record is ready — so ready is set strictly
after a successful index build and the final directory is never created
while ready is false. -/
theorem ready_only_after_index :
    ∀ failAt : Option (Fin 8), ∀ s ∈ trace0 failAt,
      (readyOf s = true → hasIndexFiles jp0 s = true)
      ∧ (dataInFinal jp0 s = true → readyOf s = true) := by decide

/-- C3 witness: the final state of the successful run is in the trace, is
ready, has the index files, and has the final directory. -/
theorem ready_only_after_index_witness :
    finalState none ∈ trace0 none
  ∧ readyOf (finalState none) = true
  ∧ (readyOf (finalState none) = true → hasIndexFiles jp0 (finalState none) = true)
  ∧ (dataInFinal jp0 (finalState none) = true → readyOf (finalState none) = true) :=
  ⟨by decide, by decide,
    (ready_only_after_index none (finalState none) (by decide)).1,
    (ready_only_after_index none (finalState none) (by decide)).2⟩

/-- C1 counterexample: when the indexing step fails, the cleanup hook
deletes the database record but the staged FASTA is still on disk in the
working directory afterwards — an on-disk artifact of the job survives,
because delete_subtraction removes only subtraction_path, never
temp_subtraction_path. -/
theorem cleanup_leaves_working_artifact :
    (finalState (some 3)).db = none
  ∧ jp0.temp_fasta_path ∈ (finalState (some 3)).fs
  ∧ dataInWorking jp0 (finalState (some 3)) = true := by decide

/-- C1 amended: for every job that ends in Failed or Cancelled, the cleanup
hook removes the final (permanent) subtraction directory tree and deletes
the database record; the working (temporary) directory tree is not removed
by the hook and survives whenever it had been created. -/
theorem cleanup_removes_final_and_record :
    ∀ k : Fin 8,
      dataInFinal jp0 (finalState (some k)) = false
      ∧ (finalState (some k)).db = none
      ∧ (1 ≤ (k : Nat) → dataInWorking jp0 (finalState (some k)) = true) := by decide

/-- C1 witness: a failure during the indexing step ends with the final
location empty, the record deleted, and the working tree still present. -/
theorem cleanup_removes_final_and_record_witness :
    dataInFinal jp0 (finalState (some 3)) = false
  ∧ (finalState (some 3)).db = none
  ∧ dataInWorking jp0 (finalState (some 3)) = true :=
  ⟨(cleanup_removes_final_and_record 3).1, (cleanup_removes_final_and_record 3).2.1,
    (cleanup_removes_final_and_record 3).2.2 (by decide)⟩

/-- C2 counterexample: after the finalization step of a successful run the
subtraction data exists in the working location and in the final location
at the same time — compress copies the working tree with copytree and
never removes it, so the compressed FASTA is present in both. -/
theorem finalize_leaves_both_locations :
    dataInWorking jp0 (finalState none) = true
  ∧ dataInFinal jp0 (finalState none) = true
  ∧ (jp0.temp_fasta_path ++ ".gz") ∈ (finalState none).fs
  ∧ (jp0.subtraction_path ++ "/subtraction.fa.gz") ∈ (finalState none).fs := by decide

/-- C2 amended: at every observable point before the finalization copy the
data exists in at most one of the working and final locations; the
finalization step copies (does not move) the working directory, so after
it completes the data exists in both locations at once. -/
theorem exclusive_before_finalize_copy :
    (∀ k : Fin 8, ∀ s ∈ trace0 (some k),
        ¬(dataInWorking jp0 s = true ∧ dataInFinal jp0 s = true))
  ∧ (∀ s ∈ (trace0 none).dropLast,
        ¬(dataInWorking jp0 s = true ∧ dataInFinal jp0 s = true))
  ∧ dataInFinal jp0 (finalState none) = true
  ∧ dataInWorking jp0 (finalState none) = true := by decide

/-- C2 witness: the initial state belongs to a failing trace and the data
is not in both locations there. -/
theorem exclusive_before_finalize_copy_witness :
    initState jp0 ∈ trace0 (some 3)
  ∧ ¬(dataInWorking jp0 (initState jp0) = true ∧ dataInFinal jp0 (initState jp0) = true) :=
  ⟨by decide, exclusive_before_finalize_copy.1 3 (initState jp0) (by decide)⟩

/-- C6: bowtie_build builds the command with the FASTA flag, the thread
count equal to the supplied bound, the staged FASTA as input and the index
location as output; the successful execution invokes the subprocess
exactly once with that command, no execution invokes it more than once,
and only exit code 0 counts as success. -/
theorem bowtie_build_invocation :
    (∀ (jp : JobParams) (n : Nat),
      bowtie_build_command jp n
        = ["bowtie2-build", "-f", "--threads", toString n,
            jp.temp_fasta_path, jp.temp_index_path])
  ∧ (finalState none).calls = [bowtie_build_command jp0 2]
  ∧ (∀ failAt : Option (Fin 8), (finalState failAt).calls.length ≤ 1)
  ∧ (∀ exit_code : Nat, run_subprocess_ok exit_code = true ↔ exit_code = 0) := by
  refine ⟨fun jp n => rfl, by decide, by decide, fun e => ?_⟩
  simp [run_subprocess_ok]

/-- C7: the cleanup hook always succeeds, and running it a second time on
the state the first run produced succeeds again and returns that state
unchanged: the missing target path is swallowed and no error is raised. -/
theorem delete_subtraction_idempotent (jp : JobParams) (s : State) :
    delete_subtraction jp s = .ok (cleanupRun jp s)
  ∧ delete_subtraction jp (cleanupRun jp s) = .ok (cleanupRun jp s) := by
  refine ⟨delete_subtraction_ok jp s, ?_⟩
  rw [delete_subtraction_ok jp (cleanupRun jp s)]
  congr 1
  rw [cleanupRun_of_not_mem jp _ (cleanupRun_fs_not_mem jp s)]
  have h : delete_one (cleanupRun jp s).db jp.subtraction_id = (cleanupRun jp s).db := by
    rw [cleanupRun_db]
    exact delete_one_idem s.db jp.subtraction_id
  rw [h]

/-- C8 counterexample: the rm call of the compress step raises
FileNotFoundError when the uncompressed copy is already gone, and the step
propagates the error instead of treating it as a no-op — there is no
exception handler around rm in compress. -/
theorem compress_rm_errors_when_fasta_missing :
    rmPath [jp0.temp_subtraction_path, jp0.temp_fasta_path ++ ".gz"]
        jp0.temp_fasta_path false = .error OsErr.enoent
  ∧ compress_step jp0 [jp0.temp_subtraction_path, jp0.temp_fasta_path ++ ".gz"]
      = .error OsErr.enoent := by decide

/-- C8 amended: compress first produces the gzip copy at the staged path
plus a .gz suffix alongside the original, then removes the uncompressed
copy; a missing uncompressed copy causes a FileNotFoundError that
propagates rather than being treated as a no-op. -/
theorem compress_creates_gz_then_removes :
    jp0.temp_fasta_path ∈ ((trace0 none).getD 5 (initState jp0)).fs
  ∧ (jp0.temp_fasta_path ++ ".gz") ∈ ((trace0 none).getD 6 (initState jp0)).fs
  ∧ jp0.temp_fasta_path ∈ ((trace0 none).getD 6 (initState jp0)).fs
  ∧ jp0.temp_fasta_path ∉ ((trace0 none).getD 7 (initState jp0)).fs
  ∧ (jp0.temp_fasta_path ++ ".gz") ∈ ((trace0 none).getD 7 (initState jp0)).fs
  ∧ compress_step jp0 (((trace0 none).getD 5 (initState jp0)).fs)
      = .ok (((trace0 none).getD 8 (initState jp0)).fs)
  ∧ rmPath [] jp0.temp_fasta_path false = .error OsErr.enoent := by decide

/-- C9: set_stats mutates only the gc and count fields of the record — id
and ready are unchanged — and no pipeline primitive other than the ready
write of bowtie_build changes the observable ready flag. -/
theorem set_stats_frame (r : SubtractionRecord) (gcv : GcStats) (cnt : Nat)
    (jp : JobParams) (nproc : Nat) (g : GcStats) (c : Nat) (p : Prim) (s s' : State)
    (hp : p ≠ Prim.setReady) (h : applyPrim jp nproc g c p s = .ok s') :
    (set_stats_update r gcv cnt).ready = r.ready
  ∧ (set_stats_update r gcv cnt).id = r.id
  ∧ readyOf s' = readyOf s := by
  refine ⟨rfl, rfl, ?_⟩
  cases p with
  | setReady => exact absurd rfl hp
  | mkdirTemp =>
      simp only [applyPrim, Except.ok.injEq] at h
      subst h; rfl
  | unpack =>
      simp only [applyPrim] at h
      split at h
      · simp only [Except.ok.injEq] at h
        subst h; rfl
      · simp at h
  | statsUpdate =>
      simp only [applyPrim] at h
      split at h
      · simp only [Except.ok.injEq] at h
        subst h
        cases hdb : s.db with
        | none => simp [readyOf, update_gc_count, hdb]
        | some r' =>
            by_cases hid : r'.id = jp.subtraction_id <;>
              simp [readyOf, update_gc_count, set_stats_update, hdb, hid]
      · simp at h
  | bowtie =>
      simp only [applyPrim] at h
      split at h
      · simp only [Except.ok.injEq] at h
        subst h; rfl
      · simp at h
  | gzipFasta =>
      simp only [applyPrim] at h
      split at h
      · simp only [Except.ok.injEq] at h
        subst h; rfl
      · simp at h
  | rmFasta =>
      simp only [applyPrim] at h
      split at h
      · simp only [Except.ok.injEq] at h
        subst h; rfl
      · simp at h
  | copyTree =>
      simp only [applyPrim] at h
      split at h
      · simp only [Except.ok.injEq] at h
        subst h; rfl
      · simp at h

/-- C9 witness: instantiated at the record of the concrete job and the
directory-creation primitive applied to the initial state. -/
theorem set_stats_frame_witness :
    (set_stats_update { id := "Host A", gc := none, count := none, ready := false } gc0 2).ready
        = ({ id := "Host A", gc := none, count := none, ready := false } : SubtractionRecord).ready
  ∧ (set_stats_update { id := "Host A", gc := none, count := none, ready := false } gc0 2).id
        = ({ id := "Host A", gc := none, count := none, ready := false } : SubtractionRecord).id
  ∧ readyOf { fs := insertPath (initState jp0).fs jp0.temp_subtraction_path,
              db := (initState jp0).db, calls := (initState jp0).calls }
        = readyOf (initState jp0) :=
  set_stats_frame { id := "Host A", gc := none, count := none, ready := false } gc0 2
    jp0 2 gc0 2 Prim.mkdirTemp (initState jp0) _ (by decide) (by decide)

/-- C10: in the cleanup hook, only a FileNotFoundError from the removal is
swallowed, after which the record is still deleted; any other error
propagates out of the hook without the record being deleted; when the
removal succeeds the record is deleted as well. -/
theorem delete_subtraction_error_propagates (jp : JobParams) (s : State)
    (e : OsErr) (fs₁ : FS) (he : e ≠ OsErr.enoent) :
    delete_subtraction_gen jp s (.error e) = .error e
  ∧ delete_subtraction_gen jp s (.error OsErr.enoent)
      = .ok { s with db := delete_one s.db jp.subtraction_id }
  ∧ delete_subtraction_gen jp s (.ok fs₁)
      = .ok { s with fs := fs₁, db := delete_one s.db jp.subtraction_id } := by
  refine ⟨?_, rfl, rfl⟩
  cases e with
  | enoent => exact absurd rfl he
  | eexist => rfl
  | eisdir => rfl
  | other m => rfl

/-- C10 witness: a permission-style error from rm propagates unchanged,
while a FileNotFoundError or a successful removal leads to the record
being deleted. -/
theorem delete_subtraction_error_propagates_witness :
    delete_subtraction_gen jp0 (initState jp0) (.error (OsErr.other "eacces"))
        = .error (OsErr.other "eacces")
  ∧ delete_subtraction_gen jp0 (initState jp0) (.error OsErr.enoent)
      = .ok { initState jp0 with db := delete_one (initState jp0).db jp0.subtraction_id }
  ∧ delete_subtraction_gen jp0 (initState jp0) (.ok [])
      = .ok { initState jp0 with
                fs := [],
                db := delete_one (initState jp0).db jp0.subtraction_id } :=
  delete_subtraction_error_propagates jp0 (initState jp0) (OsErr.other "eacces") []
    (by decide)

end CreateSubtraction
